import Mathlib

/-! Shallow embedding of the post-scheduling engine of PostAutomationBot:
`src/scheduler.py` (PostScheduler), `src/poster_bot.py` (AutomatedPosterBot.post_callback)
and `src/database.py` (DatabaseManager counters), together with a minimal model of
the daily-job semantics of the third-party `schedule` library that the source drives.

Timestamps are rational minutes since midnight of an arbitrary day 0, so
`datetime.hour` is recoverable and day boundaries sit at multiples of 1440.
The ambient random generator (`random.uniform`, `random.randint`) is modelled as
injected streams `u : ℕ → ℚ` and `m : ℕ → ℕ`, one entry per loop iteration;
`validDraws` / `validMinutes` record the interval each draw was taken from. -/

namespace PostBot

/-- Day index of a timestamp: `t` belongs to calendar day `⌊t / 1440⌋`. -/
def dayFloor (t : ℚ) : ℤ := ⌊t / 1440⌋

/-- Python `datetime.hour` of a timestamp given in minutes. -/
def hourOf (t : ℚ) : ℤ := ⌊t / 60⌋ % 24

/-- `strftime("%H:%M")` of a timestamp, read back as a minute-of-day in `[0, 1440)`
(the seconds and microseconds are dropped by the format). -/
def hmOf (t : ℚ) : ℤ := ⌊t⌋ % 1440

/-- Python `post_time.replace(hour=22, minute=m)` (src/scheduler.py line 78):
keeps the day and the sub-minute part (seconds/microseconds), rewrites the hour
to 22 and the minute to `m`. -/
def replaceHour22 (t : ℚ) (m : ℕ) : ℚ :=
  1440 * (dayFloor t : ℚ) + 22 * 60 + (m : ℚ) + (t - (⌊t⌋ : ℚ))

/-- `min_interval` of `distribute_posts_intelligently` (src/scheduler.py line 52),
with `MIN_INTERVAL_MINUTES = 30` and `minutes_remaining = hours_remaining * 60`. -/
def minIntervalEff (n : ℤ) (hoursRem : ℚ) : ℚ :=
  max 30 (hoursRem * 60 / ((n : ℚ) + 1))

/-- `max_interval` of `distribute_posts_intelligently` after the clamp on line 56,
with `MAX_INTERVAL_MINUTES = 240`. -/
def maxIntervalEff (n : ℤ) (hoursRem : ℚ) : ℚ :=
  max (min 240 (hoursRem * 60 / (n : ℚ))) (minIntervalEff n hoursRem)

/-- The loop of `distribute_posts_intelligently` (src/scheduler.py lines 64-81):
iteration `i` adds the drawn interval `u i` to the running time and, when the
resulting hour reaches 23, rewrites the slot to hour 22 with minute `m i`. -/
def planLoop (u : ℕ → ℚ) (m : ℕ → ℕ) : ℕ → ℕ → ℚ → List ℚ
  | _, 0, _ => []
  | i, n + 1, cur =>
    let t0 := cur + u i
    let t := if 23 ≤ hourOf t0 then replaceHour22 t0 (m i) else t0
    t :: planLoop u m (i + 1) n t

/-- `PostScheduler.distribute_posts_intelligently` (src/scheduler.py lines 43-83):
guard, loop, then Python `sorted`. -/
def distribute_posts_intelligently (n : ℤ) (hoursRem : ℚ) (now : ℚ)
    (u : ℕ → ℚ) (m : ℕ → ℕ) : List ℚ :=
  if n ≤ 0 ∨ hoursRem ≤ 0 then []
  else List.insertionSort (· ≤ ·) (planLoop u m 0 n.toNat now)

/-- The interval each `random.uniform` draw of the loop is taken from
(src/scheduler.py lines 66-71): draw 0 from `[min_interval, 2 * min_interval]`,
every later draw from `[min_interval, max_interval]`. -/
def validDraws (n : ℤ) (hoursRem : ℚ) (u : ℕ → ℚ) : Prop :=
  ∀ i, i < n.toNat →
    minIntervalEff n hoursRem ≤ u i ∧
      u i ≤ if i = 0 then 2 * minIntervalEff n hoursRem else maxIntervalEff n hoursRem

instance (n : ℤ) (hoursRem : ℚ) (u : ℕ → ℚ) : Decidable (validDraws n hoursRem u) := by
  unfold validDraws; infer_instance

/-- Every `random.randint(0, 59)` draw lies in `[0, 59]`. -/
def validMinutes (m : ℕ → ℕ) : Prop := ∀ i, m i ≤ 59

/-- Whether a run of the loop never triggers the hour-23 clamp of line 77. -/
def clampFreeLoop (u : ℕ → ℚ) : ℕ → ℕ → ℚ → Bool
  | _, 0, _ => true
  | i, n + 1, cur =>
    let t0 := cur + u i
    if 23 ≤ hourOf t0 then false else clampFreeLoop u (i + 1) n t0

/-- Whether a run of `distribute_posts_intelligently` never clamps a slot. -/
def clampFree (n : ℤ) (hoursRem : ℚ) (now : ℚ) (u : ℕ → ℚ) : Bool :=
  if n ≤ 0 ∨ hoursRem ≤ 0 then true else clampFreeLoop u 0 n.toNat now

/-- Job kinds installed by the scheduler: a posting job (carrying the
`post_type` handed to the callback) or an advance-notice notification job
(carrying the notification title). -/
inductive JobKind
  | post (ptype : String)
  | notify (title : String)
deriving DecidableEq

/-- One entry of the `schedule` library's global job registry as the source
uses it: every job is `schedule.every().day.at(HH:MM)` with a single tag.
`atMin` is the `HH:MM` clock time as a minute-of-day; `nextRun` is absolute. -/
structure SJob where
  tag : String
  atMin : ℤ
  kind : JobKind
  nextRun : ℚ
deriving DecidableEq

/-- The `schedule` library's rule for the `next_run` of a daily job computed at
time `now2` with clock time `atM`: today if that clock time is still strictly
ahead of the current time-of-day, otherwise tomorrow. The library applies the
same rule when a job is created and when a fired job is re-armed. -/
def nextRunFrom (now2 : ℚ) (atM : ℤ) : ℚ :=
  let d := dayFloor now2
  let tod := now2 - 1440 * (d : ℚ)
  if tod < (atM : ℚ) then 1440 * (d : ℚ) + (atM : ℚ)
  else 1440 * ((d : ℚ) + 1) + (atM : ℚ)

/-- `schedule.every().day.at(...).do(...).tag(t)` executed at time `now2`. -/
def everyDayAt (now2 : ℚ) (atM : ℤ) (tag : String) (kind : JobKind) : SJob :=
  ⟨tag, atM, kind, nextRunFrom now2 atM⟩

/-- `schedule.clear(tag)`: keeps exactly the jobs whose tag set does not
contain `tag` — membership is exact string equality, not prefix matching. -/
def schedule_clear (tag : String) (jobs : List SJob) : List SJob :=
  jobs.filter (fun j => j.tag != tag)

/-- `PostScheduler.clear_random_posts` (src/scheduler.py lines 136-139):
`schedule.clear("random_post")`. -/
def clear_random_posts (jobs : List SJob) : List SJob :=
  schedule_clear "random_post" jobs

/-- `schedule.run_pending()` at time `now2`, restricted to its effect on the
job registry: every job whose `next_run` has arrived runs and is re-armed for
its next occurrence — daily jobs recur, a fired job is not removed. The fired
callbacks' own effects are modelled separately (`post_callback`). -/
def run_pending (now2 : ℚ) (jobs : List SJob) : List SJob :=
  jobs.map (fun j =>
    if j.nextRun ≤ now2 then { j with nextRun := nextRunFrom now2 j.atMin } else j)

/-- `PostScheduler.schedule_daily_post` (src/scheduler.py lines 116-129):
always installs the fixed job at `SCHEDULED_POST_TIME = "12:00"` (minute 720)
plus its notification job one hour earlier, with no has-it-passed check. -/
def schedule_daily_post (now : ℚ) (jobs : List SJob) : List SJob :=
  jobs ++ [everyDayAt now 720 "daily_post" (JobKind.post "SCHEDULED"),
    everyDayAt now 660 "notify_daily_post" (JobKind.notify "Upcoming Post")]

/-- The install loop of `PostScheduler.schedule_remaining_posts`
(src/scheduler.py lines 101-114): for slot index `i` at time `t`, one RANDOM
post job at `t.strftime("%H:%M")` tagged `random_post_i` and, unconditionally,
one notification job at `(t - 1h).strftime("%H:%M")` tagged
`notify_random_post_i`. -/
def installLoop (now : ℚ) : List ℚ → ℕ → List SJob → List SJob
  | [], _, jobs => jobs
  | t :: ts, i, jobs =>
    installLoop now ts (i + 1)
      (jobs ++
        [everyDayAt now (hmOf t) ("random_post_" ++ toString i) (JobKind.post "RANDOM"),
          everyDayAt now (hmOf (t - 60)) ("notify_random_post_" ++ toString i)
            (JobKind.notify "Upcoming Post")])

/-- Today's audit rows `(post_type, status)` as read by the counting queries of
`DatabaseManager` (src/database.py), or the `mysql.connector.Error` state in
which every query raises. -/
abbrev QuotaDB := Except String (List (String × String))

/-- `DatabaseManager.get_today_posts_count` (src/database.py lines 93-116):
counts today's rows, optionally restricted to one `post_type` (the query does
not filter on status, so failed posts count too); on a database error it logs
the error and returns 0. -/
def get_today_posts_count (db : QuotaDB) (ptype : Option String) : ℕ :=
  match db with
  | Except.error _ => 0
  | Except.ok rows =>
    match ptype with
    | none => rows.length
    | some p => (rows.filter (fun r => r.1 == p)).length

/-- `DatabaseManager.log_post` (src/database.py lines 66-91): appends one audit
row; a database error is caught and swallowed. -/
def log_post (db : QuotaDB) (ptype status : String) : QuotaDB :=
  match db with
  | Except.error e => Except.error e
  | Except.ok rows => Except.ok (rows ++ [(ptype, status)])

/-- `PostScheduler.calculate_remaining_posts` (src/scheduler.py lines 23-33)
with `RANDOM_POSTS_PER_DAY = 5`. -/
def calculate_remaining_posts (db : QuotaDB) : ℕ :=
  let randomToday := get_today_posts_count db (some "RANDOM")
  (max 0 (5 - (randomToday : ℤ))).toNat

/-- `PostScheduler.calculate_time_remaining_today` (src/scheduler.py lines
35-41): hours until `now.replace(hour=23, minute=59, second=59,
microsecond=999999)` of the current day. -/
def calculate_time_remaining_today (now : ℚ) : ℚ :=
  let midnight := 1440 * (dayFloor now : ℚ) + (23 * 60 + 59) + 59 / 60 + 999999 / 60000000
  (midnight - now) * 60 / 3600

/-- `PostScheduler.schedule_remaining_posts` (src/scheduler.py lines 85-114). -/
def schedule_remaining_posts (db : QuotaDB) (now : ℚ) (u : ℕ → ℚ) (m : ℕ → ℕ)
    (jobs : List SJob) : List SJob :=
  let remaining := calculate_remaining_posts db
  if remaining = 0 then jobs
  else
    let hoursRem := calculate_time_remaining_today now
    if hoursRem ≤ 0 then jobs
    else
      installLoop now
        (distribute_posts_intelligently (remaining : ℤ) hoursRem now u m) 0 jobs

/-- `AutomatedPosterBot.make_post` (src/poster_bot.py lines 76-152) restricted
to its database effect: the publish outcome `success` is injected, and one
audit row is logged either way. -/
def make_post (db : QuotaDB) (success : Bool) (ptype : String) : QuotaDB × Bool :=
  (log_post db ptype (if success then "SUCCESS" else "FAILURE"), success)

/-- `AutomatedPosterBot.post_callback` (src/poster_bot.py lines 204-234)
restricted to its database and job-registry effects: make the post and — only
when a RANDOM post succeeded — call `schedule_remaining_posts` on the updated
database; desktop notifications sent along the way carry no scheduling state. -/
def post_callback (db : QuotaDB) (success : Bool) (ptype : String) (now : ℚ)
    (u : ℕ → ℚ) (m : ℕ → ℕ) (jobs : List SJob) : QuotaDB × List SJob :=
  let r := make_post db success ptype
  if r.2 = true ∧ ptype = "RANDOM" then (r.1, schedule_remaining_posts r.1 now u m jobs)
  else (r.1, jobs)

/-- The block of jobs that `installLoop` appends for the slots `ts`, starting
at slot index `i` (a derived characterisation, proved in `installLoop_eq`). -/
def pairsFrom (now : ℚ) : List ℚ → ℕ → List SJob
  | [], _ => []
  | t :: ts, i =>
    everyDayAt now (hmOf t) ("random_post_" ++ toString i) (JobKind.post "RANDOM") ::
      everyDayAt now (hmOf (t - 60)) ("notify_random_post_" ++ toString i)
        (JobKind.notify "Upcoming Post") ::
      pairsFrom now ts (i + 1)

/-- Number of pending Opportunistic (RANDOM) post jobs in a registry. -/
def oppPostCount (jobs : List SJob) : ℕ :=
  (jobs.filter (fun j => j.kind == JobKind.post "RANDOM")).length

lemma planLoop_length (u : ℕ → ℚ) (m : ℕ → ℕ) :
    ∀ (n i : ℕ) (cur : ℚ), (planLoop u m i n cur).length = n := by
  intro n
  induction n with
  | zero => intro i cur; simp [planLoop]
  | succ n ih => intro i cur; simp [planLoop, ih]

lemma length_distribute (n : ℤ) (hoursRem now : ℚ) (u : ℕ → ℚ) (m : ℕ → ℕ) :
    (distribute_posts_intelligently n hoursRem now u m).length =
      if n ≤ 0 ∨ hoursRem ≤ 0 then 0 else n.toNat := by
  unfold distribute_posts_intelligently
  split
  · rfl
  · rw [(List.perm_insertionSort _ _).length_eq, planLoop_length]

lemma fract_bounds (t : ℚ) : 0 ≤ t - (⌊t⌋ : ℚ) ∧ t - (⌊t⌋ : ℚ) < 1 :=
  ⟨sub_nonneg.mpr (Int.floor_le t), by have := Int.lt_floor_add_one t; linarith⟩

lemma hourOf_replaceHour22 (t : ℚ) (k : ℕ) (hk : k ≤ 59) :
    hourOf (replaceHour22 t k) = 22 := by
  obtain ⟨hf0, hf1⟩ := fract_bounds t
  have key : replaceHour22 t k / 60 =
      ((24 * dayFloor t + 22 : ℤ) : ℚ) + ((k : ℚ) + (t - (⌊t⌋ : ℚ))) / 60 := by
    unfold replaceHour22
    push_cast
    ring
  have hsmall : ⌊((k : ℚ) + (t - (⌊t⌋ : ℚ))) / 60⌋ = 0 := by
    rw [Int.floor_eq_zero_iff]
    constructor
    · positivity
    · have hk59 : (k : ℚ) ≤ 59 := by exact_mod_cast hk
      rw [div_lt_one (by norm_num)]
      linarith
  unfold hourOf
  rw [key, Int.floor_int_add, hsmall, add_zero]
  omega

lemma planLoop_hour (u : ℕ → ℚ) (m : ℕ → ℕ) (hm : validMinutes m) :
    ∀ (n i : ℕ) (cur : ℚ) (t : ℚ), t ∈ planLoop u m i n cur → hourOf t < 23 := by
  intro n
  induction n with
  | zero => intro i cur t ht; simp [planLoop] at ht
  | succ n ih =>
    intro i cur t ht
    simp only [planLoop, List.mem_cons] at ht
    rcases ht with ht | ht
    · subst ht
      split
      · rw [hourOf_replaceHour22 _ _ (hm i)]; norm_num
      · omega
    · exact ih (i + 1) _ t ht

lemma clampFreeLoop_succ (u : ℕ → ℚ) (i n : ℕ) (cur : ℚ)
    (h : clampFreeLoop u i (n + 1) cur = true) :
    ¬ 23 ≤ hourOf (cur + u i) ∧ clampFreeLoop u (i + 1) n (cur + u i) = true := by
  by_cases hc : 23 ≤ hourOf (cur + u i)
  · exfalso
    simp [clampFreeLoop, hc] at h
  · refine ⟨hc, ?_⟩
    simpa [clampFreeLoop, hc] using h

lemma planLoop_noclamp (u : ℕ → ℚ) (m : ℕ → ℕ) :
    ∀ (n i : ℕ) (cur : ℚ), clampFreeLoop u i n cur = true →
      planLoop u m i n cur =
        (List.range n).map (fun k => cur + ∑ j in Finset.range (k + 1), u (i + j)) := by
  intro n
  induction n with
  | zero => intro i cur _; simp [planLoop]
  | succ n ih =>
    intro i cur hcf
    obtain ⟨hno, hrec⟩ := clampFreeLoop_succ u i n cur hcf
    rw [List.range_succ_eq_map]
    simp only [planLoop, if_neg hno, List.map_cons, List.map_map]
    rw [ih (i + 1) (cur + u i) hrec]
    congr 1
    · simp
    · apply List.map_congr_left
      intro k _
      simp only [Function.comp_apply, Nat.succ_eq_add_one]
      rw [Finset.sum_range_succ' (fun j => u (i + j)) (k + 1)]
      have harg : ∀ j, u (i + (j + 1)) = u (i + 1 + j) := fun j => by
        congr 1
        omega
      rw [Finset.sum_congr rfl (fun j _ => harg j)]
      simp only [Nat.add_zero]
      ring

lemma validDraws_ge30 (n : ℤ) (hoursRem : ℚ) (u : ℕ → ℚ)
    (hv : validDraws n hoursRem u) :
    ∀ i, i < n.toNat → 30 ≤ u i := fun i hi =>
  le_trans (le_max_left _ _) (hv i hi).1

lemma chain_map_range (n : ℕ) (g : ℕ → ℚ) (c : ℚ)
    (hg : ∀ k, k + 1 < n → g k + c ≤ g (k + 1)) :
    List.Chain' (fun a b : ℚ => a + c ≤ b) ((List.range n).map g) := by
  rw [List.chain'_iff_get]
  intro i hi
  simp only [List.length_map, List.length_range] at hi
  simp only [List.get_eq_getElem, List.getElem_map, List.getElem_range]
  exact hg i (by omega)

lemma distribute_noclamp (n : ℤ) (hoursRem now : ℚ) (u : ℕ → ℚ) (m : ℕ → ℕ)
    (hguard : ¬ (n ≤ 0 ∨ hoursRem ≤ 0)) (hv : validDraws n hoursRem u)
    (hcf : clampFree n hoursRem now u = true) :
    distribute_posts_intelligently n hoursRem now u m =
      (List.range n.toNat).map (fun k => now + ∑ j in Finset.range (k + 1), u j) := by
  unfold distribute_posts_intelligently
  rw [if_neg hguard]
  unfold clampFree at hcf
  rw [if_neg hguard] at hcf
  rw [planLoop_noclamp u m n.toNat 0 now hcf]
  simp only [Nat.zero_add]
  apply List.Sorted.insertionSort_eq
  have hchain : List.Chain' (fun a b : ℚ => a + 30 ≤ b)
      ((List.range n.toNat).map (fun k => now + ∑ j in Finset.range (k + 1), u j)) := by
    apply chain_map_range
    intro k hk
    rw [Finset.sum_range_succ (fun j => u j) (k + 1)]
    have := validDraws_ge30 n hoursRem u hv (k + 1) (by omega)
    linarith
  have := List.Chain'.imp (R := fun a b : ℚ => a + 30 ≤ b) (S := fun a b : ℚ => a ≤ b)
    (fun a b hab => by linarith) hchain
  exact List.chain'_iff_pairwise.mp this

lemma installLoop_eq (now : ℚ) :
    ∀ (ts : List ℚ) (i : ℕ) (jobs : List SJob),
      installLoop now ts i jobs = jobs ++ pairsFrom now ts i := by
  intro ts
  induction ts with
  | nil => intro i jobs; simp [installLoop, pairsFrom]
  | cons t ts ih =>
    intro i jobs
    rw [installLoop, ih (i + 1), pairsFrom]
    simp

lemma pairsFrom_length (now : ℚ) :
    ∀ (ts : List ℚ) (i : ℕ), (pairsFrom now ts i).length = 2 * ts.length := by
  intro ts
  induction ts with
  | nil => intro i; simp [pairsFrom]
  | cons t ts ih =>
    intro i
    rw [pairsFrom]
    simp only [List.length_cons, ih (i + 1), List.length_cons]
    ring

lemma pairsFrom_get (now : ℚ) :
    ∀ (ts : List ℚ) (i k : ℕ), k < ts.length →
      ∃ t, ts[k]? = some t ∧
        (pairsFrom now ts i)[2 * k]? =
          some (everyDayAt now (hmOf t) ("random_post_" ++ toString (i + k))
            (JobKind.post "RANDOM")) ∧
        (pairsFrom now ts i)[2 * k + 1]? =
          some (everyDayAt now (hmOf (t - 60)) ("notify_random_post_" ++ toString (i + k))
            (JobKind.notify "Upcoming Post")) := by
  intro ts
  induction ts with
  | nil => intro i k hk; simp at hk
  | cons t ts ih =>
    intro i k hk
    cases k with
    | zero =>
      refine ⟨t, by simp, ?_, ?_⟩ <;> simp [pairsFrom]
    | succ k2 =>
      have hk2 : k2 < ts.length := by simpa using hk
      obtain ⟨t2, hts, h1, h2⟩ := ih (i + 1) k2 hk2
      have hidx : i + (k2 + 1) = i + 1 + k2 := by omega
      refine ⟨t2, by simpa using hts, ?_, ?_⟩
      · have h21 : 2 * (k2 + 1) = 2 * k2 + 1 + 1 := by ring
        rw [pairsFrom, h21, List.getElem?_cons_succ, List.getElem?_cons_succ, hidx]
        exact h1
      · have h22 : 2 * (k2 + 1) + 1 = 2 * k2 + 1 + 1 + 1 := by ring
        rw [pairsFrom, h22, List.getElem?_cons_succ, List.getElem?_cons_succ, hidx]
        exact h2

/-- C9: the planner returns the empty sequence when `count = 0` or when
`windowRemaining ≤ 0`, and neither case is an error: both hit the guard on
src/scheduler.py lines 45-46. -/
theorem C9_planner_empty_cases :
    (∀ (hoursRem now : ℚ) (u : ℕ → ℚ) (m : ℕ → ℕ),
      distribute_posts_intelligently 0 hoursRem now u m = []) ∧
    (∀ (n : ℤ) (hoursRem now : ℚ) (u : ℕ → ℚ) (m : ℕ → ℕ), hoursRem ≤ 0 →
      distribute_posts_intelligently n hoursRem now u m = []) := by
  constructor
  · intro hoursRem now u m
    simp [distribute_posts_intelligently]
  · intro n hoursRem now u m hle
    simp [distribute_posts_intelligently, hle]

/-- Witness for C9 at concrete inputs. -/
theorem C9_planner_empty_cases_witness :
    distribute_posts_intelligently 3 0 17 (fun _ => 0) (fun _ => 0) = [] :=
  C9_planner_empty_cases.2 3 0 17 (fun _ => 0) (fun _ => 0) (le_refl 0)

/-- C10: for positive count and positive remaining hours the planner returns
exactly `count` timestamps (it never truncates the plan), and, as long as the
minute draws are in `[0, 59]`, every returned timestamp has clock hour below 23:
a slot whose computed hour reaches 23 is rewritten into hour 22 (lines 77-78 of
src/scheduler.py) instead of being dropped, so the count is preserved. -/
theorem C10_count_preserved_by_clamping (n : ℤ) (hoursRem now : ℚ)
    (u : ℕ → ℚ) (m : ℕ → ℕ) :
    (0 < n → 0 < hoursRem →
      (distribute_posts_intelligently n hoursRem now u m).length = n.toNat) ∧
    (validMinutes m →
      ∀ t ∈ distribute_posts_intelligently n hoursRem now u m, hourOf t < 23) := by
  constructor
  · intro hn hh
    rw [length_distribute, if_neg]
    push_neg
    exact ⟨by omega, by linarith⟩
  · intro hm t ht
    unfold distribute_posts_intelligently at ht
    split at ht
    · simp at ht
    · exact planLoop_hour u m hm _ _ _ t ((List.perm_insertionSort _ _).mem_iff.mp ht)

/-- Witness for C10 at concrete inputs. -/
theorem C10_count_preserved_by_clamping_witness :
    (distribute_posts_intelligently 1 1 0 (fun _ => 40) (fun _ => 0)).length = 1 ∧
    (∀ t ∈ distribute_posts_intelligently 1 1 0 (fun _ => 40) (fun _ => 0),
      hourOf t < 23) :=
  ⟨(C10_count_preserved_by_clamping 1 1 0 (fun _ => 40) (fun _ => 0)).1
      (by norm_num) (by norm_num),
    (C10_count_preserved_by_clamping 1 1 0 (fun _ => 40) (fun _ => 0)).2
      (fun _ => by norm_num)⟩

/-- C1 counterexample: with one post requested, six minutes of window remaining
and a valid first draw (`30 ∈ [min_interval, 2*min_interval] = [30, 60]`), the
planner returns a slot at minute 30 — far beyond `now + windowRemaining = 6`
minutes — and the sequence has full length 1, so planning did not stop early. -/
theorem C1_counterexample :
    validDraws 1 (1 / 10) (fun _ => 30) ∧
    distribute_posts_intelligently 1 (1 / 10) 0 (fun _ => 30) (fun _ => 0) = [30] ∧
    ¬ ((30 : ℚ) < 0 + (1 / 10) * 60) ∧
    (distribute_posts_intelligently 1 (1 / 10) 0 (fun _ => 30) (fun _ => 0)).length
      = 1 := by
  refine ⟨?_, ?_, by norm_num, ?_⟩
  · unfold validDraws
    intro i hi
    norm_num at hi
    subst hi
    norm_num [minIntervalEff]
  · norm_num [distribute_posts_intelligently, planLoop, hourOf,
      List.insertionSort, List.orderedInsert]
  · norm_num [distribute_posts_intelligently, planLoop, hourOf,
      List.insertionSort, List.orderedInsert]

/-- C1 amended: the planner always returns a non-decreasing sequence, and for
`count > 0`, `windowRemaining > 0` its length is exactly `count` — it never
stops early; boundary overflow is handled by the hour-22 clamp (see C10), not
by truncation, and the slots are not guaranteed to lie inside the window. -/
theorem C1_sorted_and_exact_length (n : ℤ) (hoursRem now : ℚ)
    (u : ℕ → ℚ) (m : ℕ → ℕ) :
    List.Sorted (· ≤ ·) (distribute_posts_intelligently n hoursRem now u m) ∧
    (distribute_posts_intelligently n hoursRem now u m).length =
      if n ≤ 0 ∨ hoursRem ≤ 0 then 0 else n.toNat := by
  refine ⟨?_, length_distribute n hoursRem now u m⟩
  unfold distribute_posts_intelligently
  split
  · simp
  · exact List.sorted_insertionSort _ _

/-- C4 counterexample: with two posts, a 2-hour window starting at 22:00 and
valid draws, both computed slots reach hour 23 and are clamped into hour 22,
leaving adjacent planned times only 5 minutes apart — far below the
30-minute `MIN_INTERVAL_MINUTES`. -/
theorem C4_counterexample :
    validDraws 2 2 (fun i => if i = 0 then 70 else 40) ∧
    validMinutes (fun i => if i = 0 then 50 else 55) ∧
    distribute_posts_intelligently 2 2 1320 (fun i => if i = 0 then 70 else 40)
      (fun i => if i = 0 then 50 else 55) = [1370, 1375] ∧
    ¬ ((30 : ℚ) ≤ 1375 - 1370) := by
  refine ⟨?_, ?_, ?_, by norm_num⟩
  · unfold validDraws
    intro i hi
    norm_num at hi
    interval_cases i <;> norm_num [minIntervalEff, maxIntervalEff]
  · intro i
    dsimp only
    split <;> norm_num
  · norm_num [distribute_posts_intelligently, planLoop, hourOf, replaceHour22,
      dayFloor, List.insertionSort, List.orderedInsert]

/-- C4 amended: adjacent planned times are at least `MIN_INTERVAL_MINUTES = 30`
minutes apart provided no slot of the run triggers the hour-23 clamp of
src/scheduler.py line 77; a clamped run can violate the spacing (see the
counterexample). -/
theorem C4_min_spacing_when_unclamped (n : ℤ) (hoursRem now : ℚ)
    (u : ℕ → ℚ) (m : ℕ → ℕ)
    (hv : validDraws n hoursRem u) (hcf : clampFree n hoursRem now u = true) :
    List.Chain' (fun a b : ℚ => a + 30 ≤ b)
      (distribute_posts_intelligently n hoursRem now u m) := by
  by_cases hguard : n ≤ 0 ∨ hoursRem ≤ 0
  · unfold distribute_posts_intelligently
    rw [if_pos hguard]
    simp
  · rw [distribute_noclamp n hoursRem now u m hguard hv hcf]
    apply chain_map_range
    intro k hk
    rw [Finset.sum_range_succ (fun j => u j) (k + 1)]
    have := validDraws_ge30 n hoursRem u hv (k + 1) (by omega)
    linarith

/-- Witness for C4 at concrete inputs: a clamp-free two-slot plan. -/
theorem C4_min_spacing_when_unclamped_witness :
    List.Chain' (fun a b : ℚ => a + 30 ≤ b)
      (distribute_posts_intelligently 2 4 600 (fun i => if i = 0 then 100 else 80)
        (fun _ => 0)) := by
  apply C4_min_spacing_when_unclamped
  · unfold validDraws
    intro i hi
    norm_num at hi
    interval_cases i <;> norm_num [minIntervalEff, maxIntervalEff]
  · norm_num [clampFree, clampFreeLoop, hourOf]

/-- C7 counterexample: with one post, a 2-hour window and `now = 22:00`, the
valid draw `u 0 = 60 = effective_min` lands on hour 23, so the slot is clamped
back to 22:00 (line 78 of src/scheduler.py): the emitted slot is offset 0 from
`now`, outside the claimed uniform range `[effective_min, 2*effective_min]`. -/
theorem C7_counterexample :
    validDraws 1 2 (fun _ => 60) ∧
    distribute_posts_intelligently 1 2 1320 (fun _ => 60) (fun _ => 0) = [1320] ∧
    minIntervalEff 1 2 = 60 ∧
    ¬ (minIntervalEff 1 2 ≤ 1320 - 1320) := by
  refine ⟨?_, ?_, by norm_num [minIntervalEff], by norm_num [minIntervalEff]⟩
  · unfold validDraws
    intro i hi
    norm_num at hi
    subst hi
    norm_num [minIntervalEff]
  · norm_num [distribute_posts_intelligently, planLoop, hourOf, replaceHour22,
      dayFloor, List.insertionSort, List.orderedInsert]

/-- C7 amended: on clamp-free runs the planner realises exactly the claimed
scheme — slot `k` sits at `now` plus the sum of the first `k+1` draws, the
first draw lies in `[effective_min, 2*effective_min]` and every later draw in
`[effective_min, effective_max]` with the claimed formulas, and the output is a
deterministic function of the uniform draws (the minute draws are unused). On a
clamped run the offset can leave the stated range (see the counterexample). -/
theorem C7_interval_formulas_when_unclamped (n : ℤ) (hoursRem now : ℚ)
    (u : ℕ → ℚ) (m : ℕ → ℕ)
    (hn : 0 < n) (hh : 0 < hoursRem)
    (hv : validDraws n hoursRem u) (hcf : clampFree n hoursRem now u = true) :
    distribute_posts_intelligently n hoursRem now u m =
      (List.range n.toNat).map (fun k => now + ∑ j in Finset.range (k + 1), u j) ∧
    (max 30 (hoursRem * 60 / ((n : ℚ) + 1)) ≤ u 0 ∧
      u 0 ≤ 2 * max 30 (hoursRem * 60 / ((n : ℚ) + 1))) ∧
    (∀ i, 1 ≤ i → i < n.toNat →
      max 30 (hoursRem * 60 / ((n : ℚ) + 1)) ≤ u i ∧
        u i ≤ max (min 240 (hoursRem * 60 / (n : ℚ)))
          (max 30 (hoursRem * 60 / ((n : ℚ) + 1)))) ∧
    (∀ m2 : ℕ → ℕ, distribute_posts_intelligently n hoursRem now u m2 =
      distribute_posts_intelligently n hoursRem now u m) := by
  have hguard : ¬ (n ≤ 0 ∨ hoursRem ≤ 0) := by
    push_neg
    exact ⟨hn, hh⟩
  refine ⟨distribute_noclamp n hoursRem now u m hguard hv hcf, ?_, ?_, ?_⟩
  · have h0 := hv 0 (by omega)
    simpa [minIntervalEff] using h0
  · intro i h1 h2
    have hi := hv i h2
    rw [if_neg (by omega : ¬ i = 0)] at hi
    simpa [minIntervalEff, maxIntervalEff] using hi
  · intro m2
    rw [distribute_noclamp n hoursRem now u m2 hguard hv hcf,
      distribute_noclamp n hoursRem now u m hguard hv hcf]

/-- Witness for C7 at concrete inputs: a clamp-free one-slot plan. -/
theorem C7_interval_formulas_when_unclamped_witness :
    distribute_posts_intelligently 1 4 600 (fun _ => 200) (fun _ => 0) =
      (List.range (1 : ℤ).toNat).map
        (fun k => 600 + ∑ j in Finset.range (k + 1), (fun _ => (200 : ℚ)) j) := by
  refine (C7_interval_formulas_when_unclamped 1 4 600 (fun _ => 200) (fun _ => 0)
    (by norm_num) (by norm_num) ?_ ?_).1
  · unfold validDraws
    intro i hi
    norm_num at hi
    subst hi
    norm_num [minIntervalEff]
  · norm_num [clampFree, clampFreeLoop, hourOf]

/-- C8: evaluating the code at the failing input. `clear_random_posts` runs
`schedule.clear("random_post")`, which matches tags by exact string equality,
while the installed opportunistic jobs are tagged `random_post_0`,
`random_post_1`, ...: nothing matches, the whole table survives — contradicting
the claimed prefix removal and the function's own docstring
("Clear only random post schedules"). -/
theorem C8_clear_random_posts_noop :
    clear_random_posts
        [⟨"random_post_0", 900, JobKind.post "RANDOM", 900⟩,
          ⟨"random_post_1", 1000, JobKind.post "RANDOM", 1000⟩,
          ⟨"daily_post", 720, JobKind.post "SCHEDULED", 720⟩] =
      [⟨"random_post_0", 900, JobKind.post "RANDOM", 900⟩,
        ⟨"random_post_1", 1000, JobKind.post "RANDOM", 1000⟩,
        ⟨"daily_post", 720, JobKind.post "SCHEDULED", 720⟩] ∧
    ¬ clear_random_posts
        [⟨"random_post_0", 900, JobKind.post "RANDOM", 900⟩,
          ⟨"random_post_1", 1000, JobKind.post "RANDOM", 1000⟩,
          ⟨"daily_post", 720, JobKind.post "SCHEDULED", 720⟩] =
      [⟨"daily_post", 720, JobKind.post "SCHEDULED", 720⟩] := by
  constructor
  · decide
  · decide

/-- C3 counterexample: when the quota read raises (modelled as the error state
of the database), `get_today_posts_count` returns 0, so
`calculate_remaining_posts` computes the FULL daily quota of 5 — not zero —
and a full plan of 5 post jobs plus 5 notification jobs is installed for the
cycle. Planning indeed completes without raising, but it is not a no-op. -/
theorem C3_counterexample :
    calculate_remaining_posts (Except.error "connection refused") = 5 ∧
    validDraws 5 (calculate_time_remaining_today 600) (fun _ => 150) ∧
    (schedule_remaining_posts (Except.error "connection refused") 600
        (fun _ => 150) (fun _ => 0) []).length = 10 ∧
    ¬ (schedule_remaining_posts (Except.error "connection refused") 600
        (fun _ => 150) (fun _ => 0) []).length = 0 := by
  have h3 : (schedule_remaining_posts (Except.error "connection refused") 600
      (fun _ => 150) (fun _ => 0) []).length = 10 := by
    norm_num [schedule_remaining_posts, calculate_remaining_posts,
      get_today_posts_count, calculate_time_remaining_today, dayFloor,
      distribute_posts_intelligently, planLoop, hourOf, List.insertionSort,
      List.orderedInsert, installLoop, everyDayAt, nextRunFrom, hmOf]
  refine ⟨rfl, ?_, h3, by rw [h3]; norm_num⟩
  unfold validDraws
  intro i hi
  norm_num at hi
  interval_cases i <;>
    norm_num [minIntervalEff, maxIntervalEff, calculate_time_remaining_today, dayFloor]

/-- C3 amended: a failed quota read degrades to the FULL daily quota, not to
zero slots — `get_today_posts_count` returns 0 on error, so the engine
computes `5 - 0 = 5` remaining posts and (time permitting) installs 5 post
jobs plus 5 notification jobs; the planning step itself never raises. -/
theorem C3_quota_failure_full_plan (e : String) (now : ℚ)
    (u : ℕ → ℚ) (m : ℕ → ℕ) :
    calculate_remaining_posts (Except.error e) = 5 ∧
    (0 < calculate_time_remaining_today now →
      (schedule_remaining_posts (Except.error e) now u m []).length = 10) := by
  have h5 : calculate_remaining_posts (Except.error e) = 5 := rfl
  refine ⟨h5, ?_⟩
  intro hpos
  have hne : ¬ (calculate_remaining_posts (Except.error e) = 0) := by
    rw [h5]
    norm_num
  have hle : ¬ (calculate_time_remaining_today now ≤ 0) := not_le.mpr hpos
  simp only [schedule_remaining_posts, if_neg hne, if_neg hle, h5]
  rw [if_neg (by norm_num : ¬ (5 : ℕ) = 0)]
  rw [installLoop_eq]
  rw [List.nil_append]
  rw [pairsFrom_length, length_distribute, if_neg]
  · decide
  · push_neg
    exact ⟨by norm_num, hpos⟩

/-- Witness for C3 at concrete inputs. -/
theorem C3_quota_failure_full_plan_witness :
    (schedule_remaining_posts (Except.error "err") 600
      (fun _ => 150) (fun _ => 0) []).length = 10 :=
  (C3_quota_failure_full_plan "err" 600 (fun _ => 150) (fun _ => 0)).2
    (by norm_num [calculate_time_remaining_today, dayFloor])

/-- C6 counterexample: at `now = 13:20` (minute 800) the configured 12:00 has
already passed, yet `schedule_daily_post` installs the fixed job anyway — the
`schedule` library arms it for 12:00 of the NEXT day (`next_run = 2160 =
1440 + 720`); and when it fires at that time, `run_pending` re-arms it another
day ahead (3600) instead of removing it, so it fires again every day. -/
theorem C6_counterexample :
    schedule_daily_post 800 [] =
      [⟨"daily_post", 720, JobKind.post "SCHEDULED", 2160⟩,
        ⟨"notify_daily_post", 660, JobKind.notify "Upcoming Post", 2100⟩] ∧
    (720 : ℚ) < 800 ∧
    (2160 : ℚ) = 1440 + 720 ∧
    run_pending 2160 (schedule_daily_post 800 []) =
      [⟨"daily_post", 720, JobKind.post "SCHEDULED", 3600⟩,
        ⟨"notify_daily_post", 660, JobKind.notify "Upcoming Post", 3540⟩] := by
  refine ⟨?_, by norm_num, by norm_num, ?_⟩
  · norm_num [schedule_daily_post, everyDayAt, nextRunFrom, dayFloor]
  · norm_num [run_pending, schedule_daily_post, everyDayAt, nextRunFrom, dayFloor]

/-- C6 amended: the fixed daily job is ALWAYS installed at clock time 12:00 —
armed for today when 12:00 is still ahead of `now`, otherwise implicitly for
tomorrow (the engine does cross-day plan); and jobs are daily-recurring: firing
re-arms a job for a strictly later run instead of removing it, so no job fires
at most once. -/
theorem C6_fixed_job_recurs (now : ℚ) (jobs : List SJob) :
    (schedule_daily_post now jobs).length = jobs.length + 2 ∧
    (schedule_daily_post now jobs)[jobs.length]? =
      some ⟨"daily_post", 720, JobKind.post "SCHEDULED",
        if now - 1440 * (dayFloor now : ℚ) < 720 then 1440 * (dayFloor now : ℚ) + 720
        else 1440 * ((dayFloor now : ℚ) + 1) + 720⟩ ∧
    (∀ (now2 : ℚ) (js : List SJob), (run_pending now2 js).length = js.length) ∧
    (∀ (t : ℚ) (a : ℤ), 0 ≤ a → t < nextRunFrom t a) := by
  refine ⟨by simp [schedule_daily_post], ?_, fun now2 js => by simp [run_pending], ?_⟩
  · rw [schedule_daily_post, List.getElem?_append_right (le_refl jobs.length)]
    simp only [Nat.sub_self]
    norm_num [everyDayAt, nextRunFrom]
  · intro t a ha
    simp only [nextRunFrom]
    have h1 : ((dayFloor t : ℚ)) ≤ t / 1440 := Int.floor_le _
    have h2 : t / 1440 < (dayFloor t : ℚ) + 1 := Int.lt_floor_add_one _
    have h2m : t < ((dayFloor t : ℚ) + 1) * 1440 :=
      (div_lt_iff₀ (by norm_num : (0 : ℚ) < 1440)).mp h2
    have ha2 : (0 : ℚ) ≤ (a : ℚ) := by exact_mod_cast ha
    split
    · linarith
    · linarith

/-- Witness for C6 at concrete inputs. -/
theorem C6_fixed_job_recurs_witness : (0 : ℚ) < nextRunFrom 0 720 :=
  (C6_fixed_job_recurs 100 []).2.2.2 0 720 (by norm_num)

/-- C5 counterexample: starting at `now = 23:00` with one opportunistic post
remaining, the planned (clamped) slot is 22:05 — so the notice time 21:05 is
already in the past — yet the install loop still creates the notification
job, arming it for the next day instead of omitting it. -/
theorem C5_counterexample :
    (1325 : ℚ) - 60 < 1380 ∧
    schedule_remaining_posts
        (Except.ok [("RANDOM", "SUCCESS"), ("RANDOM", "SUCCESS"),
          ("RANDOM", "SUCCESS"), ("RANDOM", "SUCCESS")]) 1380
        (fun _ => 30) (fun _ => 5) [] =
      [⟨"random_post_" ++ toString 0, 1325, JobKind.post "RANDOM", 2765⟩,
        ⟨"notify_random_post_" ++ toString 0, 1265, JobKind.notify "Upcoming Post",
          2705⟩] ∧
    validDraws 1 (calculate_time_remaining_today 1380) (fun _ => 30) ∧
    validMinutes (fun _ => 5) := by
  have hc : calculate_remaining_posts
      (Except.ok [("RANDOM", "SUCCESS"), ("RANDOM", "SUCCESS"),
        ("RANDOM", "SUCCESS"), ("RANDOM", "SUCCESS")]) = 1 := by decide
  refine ⟨by norm_num, ?_, ?_, fun i => by norm_num⟩
  · norm_num [schedule_remaining_posts, hc, calculate_time_remaining_today, dayFloor,
      distribute_posts_intelligently, planLoop, hourOf, replaceHour22,
      List.insertionSort, List.orderedInsert, installLoop, everyDayAt, nextRunFrom, hmOf]
  · unfold validDraws
    intro i hi
    norm_num at hi
    subst hi
    norm_num [minIntervalEff, calculate_time_remaining_today, dayFloor]

/-- C5 amended: for every slot the install loop creates exactly one post job
and one companion notification job, the notice at the clock minute exactly 60
minutes before the slot's clock minute (wrapping through `%H:%M`), tagged
`notify_random_post_{index}` — unconditionally: a notice whose time has passed
is installed all the same (the library then defers it to the next day), never
omitted. -/
theorem C5_notice_always_installed (now : ℚ) (ts : List ℚ) (i : ℕ)
    (jobs : List SJob) :
    installLoop now ts i jobs = jobs ++ pairsFrom now ts i ∧
    (pairsFrom now ts i).length = 2 * ts.length ∧
    ∀ k, k < ts.length →
      ∃ t, ts[k]? = some t ∧
        (pairsFrom now ts i)[2 * k]? =
          some (everyDayAt now (hmOf t) ("random_post_" ++ toString (i + k))
            (JobKind.post "RANDOM")) ∧
        (pairsFrom now ts i)[2 * k + 1]? =
          some (everyDayAt now (hmOf (t - 60)) ("notify_random_post_" ++ toString (i + k))
            (JobKind.notify "Upcoming Post")) :=
  ⟨installLoop_eq now ts i jobs, pairsFrom_length now ts i,
    fun k hk => pairsFrom_get now ts i k hk⟩

/-- Witness for C5 at concrete inputs. -/
theorem C5_notice_always_installed_witness :
    ∃ t, ([(1325 : ℚ)])[0]? = some t ∧
      (pairsFrom 1380 [(1325 : ℚ)] 0)[2 * 0]? =
        some (everyDayAt 1380 (hmOf t) ("random_post_" ++ toString (0 + 0))
          (JobKind.post "RANDOM")) ∧
      (pairsFrom 1380 [(1325 : ℚ)] 0)[2 * 0 + 1]? =
        some (everyDayAt 1380 (hmOf (t - 60)) ("notify_random_post_" ++ toString (0 + 0))
          (JobKind.notify "Upcoming Post")) :=
  (C5_notice_always_installed 1380 [(1325 : ℚ)] 0 []).2.2 0 (by norm_num)

/-- C2 counterexample: a successful RANDOM dispatch with one slot left in the
new snapshot re-plans WITHOUT cancelling: the stale `random_post_0` job is
still in the registry and a second plan is appended after it, so two pending
opportunistic post jobs remain while the new remainder is 1. -/
theorem C2_counterexample :
    post_callback
        (Except.ok [("RANDOM", "SUCCESS"), ("RANDOM", "SUCCESS"), ("RANDOM", "SUCCESS")])
        true "RANDOM" 600 (fun _ => 500) (fun _ => 0)
        [⟨"daily_post", 720, JobKind.post "SCHEDULED", 720⟩,
          ⟨"random_post_0", 900, JobKind.post "RANDOM", 900⟩,
          ⟨"notify_random_post_0", 840, JobKind.notify "Upcoming Post", 840⟩] =
      (Except.ok [("RANDOM", "SUCCESS"), ("RANDOM", "SUCCESS"), ("RANDOM", "SUCCESS"),
          ("RANDOM", "SUCCESS")],
        [⟨"daily_post", 720, JobKind.post "SCHEDULED", 720⟩,
          ⟨"random_post_0", 900, JobKind.post "RANDOM", 900⟩,
          ⟨"notify_random_post_0", 840, JobKind.notify "Upcoming Post", 840⟩,
          ⟨"random_post_" ++ toString 0, 1100, JobKind.post "RANDOM", 1100⟩,
          ⟨"notify_random_post_" ++ toString 0, 1040, JobKind.notify "Upcoming Post",
            1040⟩]) ∧
    calculate_remaining_posts
        (Except.ok [("RANDOM", "SUCCESS"), ("RANDOM", "SUCCESS"), ("RANDOM", "SUCCESS"),
          ("RANDOM", "SUCCESS")]) = 1 ∧
    oppPostCount
        [⟨"daily_post", 720, JobKind.post "SCHEDULED", 720⟩,
          ⟨"random_post_0", 900, JobKind.post "RANDOM", 900⟩,
          ⟨"notify_random_post_0", 840, JobKind.notify "Upcoming Post", 840⟩,
          ⟨"random_post_" ++ toString 0, 1100, JobKind.post "RANDOM", 1100⟩,
          ⟨"notify_random_post_" ++ toString 0, 1040, JobKind.notify "Upcoming Post",
            1040⟩] = 2 ∧
    ¬ (2 = 1) ∧
    validDraws 1 (calculate_time_remaining_today 600) (fun _ => 500) := by
  have hc : calculate_remaining_posts
      (Except.ok [("RANDOM", "SUCCESS"), ("RANDOM", "SUCCESS"), ("RANDOM", "SUCCESS"),
        ("RANDOM", "SUCCESS")]) = 1 := by decide
  refine ⟨?_, hc, by decide, by norm_num, ?_⟩
  · norm_num [post_callback, make_post, log_post, schedule_remaining_posts, hc,
      calculate_time_remaining_today, dayFloor, distribute_posts_intelligently,
      planLoop, hourOf, replaceHour22, List.insertionSort, List.orderedInsert,
      installLoop, everyDayAt, nextRunFrom, hmOf]
  · unfold validDraws
    intro i hi
    norm_num at hi
    subst hi
    norm_num [minIntervalEff, calculate_time_remaining_today, dayFloor]

/-- C2 amended: after a failed outcome, or a success of a non-RANDOM post, the
registry is unchanged; after a successful RANDOM post the engine re-reads the
quota from the freshly updated database and appends the recomputed plan to the
existing registry — it does NOT cancel the previously installed opportunistic
jobs first, so stale and fresh plans coexist; the fixed job (along with every
other pre-existing job) is left untouched in place. -/
theorem C2_success_appends_plan (db : QuotaDB) (ptype : String) (now : ℚ)
    (u : ℕ → ℚ) (m : ℕ → ℕ) (jobs : List SJob) :
    (post_callback db false ptype now u m jobs).2 = jobs ∧
    (ptype ≠ "RANDOM" → (post_callback db true ptype now u m jobs).2 = jobs) ∧
    (post_callback db true "RANDOM" now u m jobs).1 = log_post db "RANDOM" "SUCCESS" ∧
    (∃ tail, (post_callback db true "RANDOM" now u m jobs).2 = jobs ++ tail) := by
  have hsr : ∀ db2 : QuotaDB, ∃ tail,
      schedule_remaining_posts db2 now u m jobs = jobs ++ tail := by
    intro db2
    simp only [schedule_remaining_posts]
    split
    · exact ⟨[], by simp⟩
    · split
      · exact ⟨[], by simp⟩
      · exact ⟨_, installLoop_eq now _ 0 jobs⟩
  refine ⟨?_, ?_, ?_, ?_⟩
  · simp [post_callback, make_post]
  · intro h
    simp [post_callback, make_post, h]
  · simp [post_callback, make_post]
  · simp only [post_callback]
    rw [if_pos (⟨rfl, trivial⟩ :
      (make_post db true "RANDOM").2 = true ∧ True)]
    simpa using hsr (make_post db true "RANDOM").1

/-- Witness for C2 at concrete inputs. -/
theorem C2_success_appends_plan_witness :
    (post_callback (Except.ok []) true "SCHEDULED" 0 (fun _ => 0) (fun _ => 0) []).2
      = [] :=
  (C2_success_appends_plan (Except.ok []) "SCHEDULED" 0 (fun _ => 0) (fun _ => 0)
    []).2.1 (by decide)

end PostBot

